import Mathlib

/-!
Verification of the condition-variable implementation in
`mingw.condition_variable.h` (namespaces `mingw_stdthread::xp` and
`mingw_stdthread::vista`).

The emulated engine (`xp::condition_variable_any`) is built from a counting
semaphore (`mSemaphore`), an auto-reset event (`mWakeEvent`), a recursive
internal mutex (`mMutex`) and an atomic waiter counter (`mNumWaiters`).
We embed each operation as an executable Lean function over an explicit
state record.  Interaction with the operating system and with concurrently
running threads is made explicit:

* the result of a blocking `WaitForSingleObject` call on the semaphore is
  supplied by an oracle argument (`env`), since it depends on concurrent
  notifications and on elapsed time;
* the activity of concurrently exiting waiters during a notifier's drain
  loop is supplied as a schedule: a list, one entry per iteration of the
  drain loop, of the batch of waiter exits that happened while the notifier
  was blocked on the wake event, together with the status returned by
  `WaitForSingleObject(mWakeEvent, 1000)`.

Machine integers: `DWORD` values are modelled as `Nat` with explicit
`% 2^32` where the code truncates, `mNumWaiters` (a C `int`) as `Int`
(its magnitude never approaches the 31-bit bound in any claim considered).
-/

namespace MinGWThreads

/-! ### Windows API constants (from `windows.h`) -/

def WAIT_OBJECT_0 : Nat := 0

def WAIT_ABANDONED : Nat := 0x80

def WAIT_TIMEOUT : Nat := 0x102

def WAIT_FAILED : Nat := 0xFFFFFFFF

def INFINITE : Nat := 0xFFFFFFFF

/-- `enum class cv_status { no_timeout, timeout };` (or `std::cv_status`). -/
inductive cv_status where
  | no_timeout
  | timeout
deriving DecidableEq, Repr

/-- How a call of the emulated engine ends: a normal return of `α`, a thrown
`std::system_error(EPROTO, ...)`, or `std::terminate()`. -/
inductive Outcome (α : Type) where
  | ok (value : α)
  | eproto
  | terminated
deriving DecidableEq, Repr

/-- State of one `xp::condition_variable_any` object:
`mNumWaiters` is the atomic waiter counter; `semCount` is the current count
of the kernel semaphore object behind the `mSemaphore` handle; `wakeEvent`
is the signaled flag of the auto-reset event behind `mWakeEvent`. -/
structure CVState where
  mNumWaiters : Int
  semCount : Nat
  wakeEvent : Bool
deriving DecidableEq, Repr

/-- A waiting thread's view: the engine state plus whether the caller's
external lock is currently held by the caller. -/
structure WaitCtx where
  cv : CVState
  extLockHeld : Bool
deriving DecidableEq, Repr

/-- The individual effects a call performs, recorded in order as a trace.
`osWait t` is a `WaitForSingleObject`/`SleepConditionVariableCS` call with
timeout argument `t`. -/
inductive Action where
  | lockInternal
  | unlockInternal
  | incWaiters
  | decWaiters
  | unlockExternal
  | lockExternal
  | osWait (timeout : Nat)
  | setWakeEvent
deriving DecidableEq, Repr

/-- Semantics of `WaitForSingleObject(mSemaphore, timeout)`, returning the
status and the semaphore count afterwards.  A semaphore with positive count
satisfies the wait immediately; with count zero and timeout `0` the call is
non-blocking and times out; otherwise the thread blocks and the status is
decided by the environment (a concurrent release that is consumed leaves the
count unchanged), supplied as the oracle `env`. -/
def waitForSemaphore (semCount timeout env : Nat) : Nat × Nat :=
  if 0 < semCount then (WAIT_OBJECT_0, semCount - 1)
  else if timeout = 0 then (WAIT_TIMEOUT, semCount)
  else (env, semCount)

/-- `xp::condition_variable_any::wait_impl(M& lock, DWORD timeout)`
(lines 69-98).  Under `mMutex`, `mNumWaiters++`; `lock.unlock()`;
`WaitForSingleObject(mSemaphore, timeout)`; `mNumWaiters--`;
`SetEvent(mWakeEvent)`; `lock.lock()`; then `true` on `WAIT_OBJECT_0`,
`false` on `WAIT_TIMEOUT`, and `throw std::system_error(EPROTO, ...)`
otherwise. -/
def wait_impl (c : WaitCtx) (timeout env : Nat) : WaitCtx × List Action × Outcome Bool :=
  let afterInc : CVState := { c.cv with mNumWaiters := c.cv.mNumWaiters + 1 }
  let ret : Nat := (waitForSemaphore afterInc.semCount timeout env).1
  let semAfter : Nat := (waitForSemaphore afterInc.semCount timeout env).2
  let afterDec : CVState :=
    { afterInc with
        mNumWaiters := afterInc.mNumWaiters - 1
        semCount := semAfter
        wakeEvent := true }
  let cAfter : WaitCtx := { cv := afterDec, extLockHeld := true }
  let tr : List Action :=
    [.lockInternal, .incWaiters, .unlockInternal, .unlockExternal,
     .osWait timeout, .decWaiters, .setWakeEvent, .lockExternal]
  (cAfter, tr,
    if ret = WAIT_OBJECT_0 then .ok true
    else if ret = WAIT_TIMEOUT then .ok false
    else .eproto)

/-- The millisecond-to-`DWORD` conversion in
`xp::condition_variable_any::wait_for` (lines 154-158):
`long long timeout = duration_cast<milliseconds>(rel_time).count();
if (timeout < 0) timeout = 0;` then the cast `(DWORD)timeout`. -/
def xp_timeout_to_dword (ms : Int) : Nat :=
  ((if ms < 0 then 0 else ms) % 4294967296).toNat

/-- Same conversion in `vista::condition_variable::wait_for`
(lines 306-310): `auto time = duration_cast<milliseconds>(rel_time).count();
if (time < 0) time = 0; static_cast<DWORD>(time)`. -/
def vista_cv_timeout_to_dword (ms : Int) : Nat :=
  ((if ms < 0 then 0 else ms) % 4294967296).toNat

/-- Same conversion in `vista::condition_variable_any::wait_for`
(lines 424-428). -/
def vista_cva_timeout_to_dword (ms : Int) : Nat :=
  ((if ms < 0 then 0 else ms) % 4294967296).toNat

/-- `xp::condition_variable_any::wait_for(M&, duration)` (lines 150-160):
convert the duration, call `wait_impl`, map `true` to `no_timeout` and
`false` to `timeout`; the `EPROTO` exception propagates. -/
def xp_wait_for (c : WaitCtx) (ms : Int) (env : Nat) :
    WaitCtx × List Action × Outcome cv_status :=
  let r := wait_impl c (xp_timeout_to_dword ms) env
  (r.1, r.2.1,
    match r.2.2 with
    | .ok true => .ok .no_timeout
    | .ok false => .ok .timeout
    | .eproto => .eproto
    | .terminated => .terminated)

/-! ### The notify side of the emulated engine

While a notifier holds `mMutex`, no new waiter can increment `mNumWaiters`
(the increment in `wait_impl` is performed under `mMutex`), but waiters that
are already past the increment decrement it concurrently, without the lock:
a waiter that acquires a semaphore unit (`woken`) and a waiter whose
`WaitForSingleObject` timed out (`timedOut`) both run `mNumWaiters--` and
`SetEvent(mWakeEvent)`; only the former consumes a semaphore unit.
A drain-loop schedule lists, for each iteration of the notifier's loop, the
batch of such exits that happened while the notifier was blocked on
`WaitForSingleObject(mWakeEvent, 1000)` together with that call's status. -/

/-- One concurrent waiter leaving the parked state. -/
inductive WaiterExit where
  | woken
  | timedOut
deriving DecidableEq, Repr

/-- Effect of one exiting waiter on the engine state (`mNumWaiters--;
SetEvent(mWakeEvent);`, a `woken` waiter having consumed one unit). -/
def applyExit (s : CVState) : WaiterExit → CVState
  | .woken =>
      { s with mNumWaiters := s.mNumWaiters - 1, semCount := s.semCount - 1,
               wakeEvent := true }
  | .timedOut => { s with mNumWaiters := s.mNumWaiters - 1, wakeEvent := true }

/-- Effect of a batch of concurrent exits. -/
def applyExits (s : CVState) (es : List WaiterExit) : CVState :=
  es.foldl applyExit s

/-- A drain-loop schedule: per loop iteration, the exits that occurred during
the event wait and the status returned by
`WaitForSingleObject(mWakeEvent, 1000)`. -/
abbrev DrainSched := List (List WaiterExit × Nat)

/-- Total number of waiter exits a schedule performs. -/
def totalExits (sched : DrainSched) : Nat :=
  (sched.map fun p => p.1.length).sum

/-- How a notify call ends: a normal return with the resulting engine state,
`std::terminate()` on a failed event wait, or the supplied schedule ran out
before `mNumWaiters` dropped far enough (the loop is still running). -/
inductive NotifyResult where
  | done (s : CVState)
  | fatal
  | outOfSched
deriving DecidableEq, Repr

/-- The loop `while (mNumWaiters > 0) { auto ret =
WaitForSingleObject(mWakeEvent, 1000); if (ret == WAIT_FAILED || ret ==
WAIT_ABANDONED) std::terminate(); }` of `notify_all` (lines 121-126).
A successful event wait consumes the auto-reset event. -/
def notifyAllLoop : CVState → DrainSched → NotifyResult
  | s, [] => if s.mNumWaiters ≤ 0 then .done s else .outOfSched
  | s, (es, ret) :: rest =>
      if s.mNumWaiters ≤ 0 then .done s
      else
        let s1 := applyExits s es
        let s2 := if ret = WAIT_OBJECT_0 then { s1 with wakeEvent := false } else s1
        if ret = WAIT_FAILED ∨ ret = WAIT_ABANDONED then .fatal
        else notifyAllLoop s2 rest

/-- The residual-unit drain `while (WaitForSingleObject(mSemaphore, 0) ==
WAIT_OBJECT_0);` of `notify_all` (line 133): each non-blocking wait on a
positive count consumes one unit; on count zero it times out and the loop
exits. -/
def drainSemaphore : Nat → Nat
  | 0 => 0
  | n + 1 => drainSemaphore n

/-- `xp::condition_variable_any::notify_all()` (lines 114-134), under
`mMutex`: return if `mNumWaiters.load() <= 0`; otherwise
`ReleaseSemaphore(mSemaphore, mNumWaiters, NULL)` (recorded in the returned
list of release amounts), run the drain-event loop, then re-zero the
semaphore. -/
def notify_all (s : CVState) (sched : DrainSched) : NotifyResult × List Nat :=
  if s.mNumWaiters ≤ 0 then (.done s, [])
  else
    let s1 := { s with semCount := s.semCount + s.mNumWaiters.toNat }
    match notifyAllLoop s1 sched with
    | .done s2 => (.done { s2 with semCount := drainSemaphore s2.semCount },
                   [s.mNumWaiters.toNat])
    | r => (r, [s.mNumWaiters.toNat])

/-- The loop `while (mNumWaiters > targetWaiters) { ... }` of `notify_one`
(lines 142-147), identical to the `notify_all` loop except for the bound. -/
def notifyOneLoop (target : Int) : CVState → DrainSched → NotifyResult
  | s, [] => if s.mNumWaiters ≤ target then .done s else .outOfSched
  | s, (es, ret) :: rest =>
      if s.mNumWaiters ≤ target then .done s
      else
        let s1 := applyExits s es
        let s2 := if ret = WAIT_OBJECT_0 then { s1 with wakeEvent := false } else s1
        if ret = WAIT_FAILED ∨ ret = WAIT_ABANDONED then .fatal
        else notifyOneLoop target s2 rest

/-- `xp::condition_variable_any::notify_one()` (lines 135-149), under
`mMutex`: `int targetWaiters = mNumWaiters.load() - 1; if (targetWaiters <=
-1) return;` otherwise `ReleaseSemaphore(mSemaphore, 1, NULL)` and run the
drain-event loop down to `targetWaiters`.  There is no semaphore re-zeroing
here. -/
def notify_one (s : CVState) (sched : DrainSched) : NotifyResult × List Nat :=
  let targetWaiters : Int := s.mNumWaiters - 1
  if targetWaiters ≤ -1 then (.done s, [])
  else
    (notifyOneLoop targetWaiters
      { s with semCount := s.semCount + 1 } sched, [1])

/-! ### Predicate waits

A zero-argument boolean predicate over shared state is embedded as the
sequence of values its successive evaluations return (each evaluation is
made with the external lock held): `pred k` is the value of the `k`-th call
of `pred()`.  The fuel argument bounds the number of `wait(lock)` calls the
loop may make; the functions return the index of the evaluation at which
`pred()` was first seen `true`, or `none` if the loop is still running when
the fuel runs out. -/

/-- `xp::condition_variable_any::wait(M& lock, Predicate pred)`
(lines 105-112): `while (!pred()) { wait(lock); }`. -/
def xp_wait_pred (pred : Nat → Bool) : Nat → Nat → Option Nat
  | 0, k => if pred k then some k else none
  | fuel + 1, k => if pred k then some k else xp_wait_pred pred fuel (k + 1)

/-- `vista::condition_variable::wait(unique_lock<mutex>& lock, Predicate
pred)` (lines 295-300): `while (!pred()) wait(lock);`. -/
def vista_wait_pred (pred : Nat → Bool) : Nat → Nat → Option Nat
  | 0, k => if pred k then some k else none
  | fuel + 1, k => if pred k then some k else vista_wait_pred pred fuel (k + 1)

/-! ### The native-backed (vista) engine

`vista::condition_variable::wait_impl` (lines 240-261) releases the
caller's critical section, calls `SleepConditionVariableCS(&cvariable_,
pmutex->native_handle(), time)` and reacquires the lock, returning the BOOL
success of the sleep.  A native condition variable buffers no signals, so
the sleep succeeds exactly when a wake is delivered to this sleeper before
the timeout elapses; that fact is supplied by the oracle `wakeDuring`
(with the drift that `time = 0` gives the wake no window, so a quiescent
call times out).  The owner-thread bookkeeping guarded by
`STDMUTEX_NO_RECURSION_CHECKS` does not affect the result and is omitted. -/

/-- `vista::condition_variable::wait_impl(unique_lock<mutex>&, DWORD)`:
unlock, sleep on the native condition variable, relock, report success. -/
def vista_wait_impl (_extLockHeld : Bool) (time : Nat) (wakeDuring : Bool) :
    Bool × List Action × Outcome Bool :=
  (true, [.unlockExternal, .osWait time, .lockExternal], .ok wakeDuring)

/-- `vista::condition_variable::wait_for(unique_lock<mutex>&, duration)`
(lines 302-312): convert, call `wait_impl`, map the success flag to
`cv_status`. -/
def vista_wait_for (extLockHeld : Bool) (ms : Int) (wakeDuring : Bool) :
    Bool × List Action × Outcome cv_status :=
  let r := vista_wait_impl extLockHeld (vista_cv_timeout_to_dword ms) wakeDuring
  (r.1, r.2.1,
    match r.2.2 with
    | .ok true => .ok .no_timeout
    | .ok false => .ok .timeout
    | .eproto => .eproto
    | .terminated => .terminated)

/-! ### Timed predicate waits

`wait_until(lock, abs_time, pred)` (xp lines 174-187, vista lines 329-342)
is `while (!pred()) { if (wait_until(lock, abs_time) == cv_status::timeout)
return pred(); } return true;`, and the inner `wait_until(lock, abs_time)`
is `wait_for(lock, abs_time - Clock::now())`.  The clock is embedded as the
sequence `nows` of values returned by the successive `Clock::now()` calls
(call `0` is the one in `wait_for`'s `steady_clock::now() + rel_time`).
The results of the successive blocking waits are supplied by the oracle
sequence `envs` (xp) / `wakes` (vista).  `pk` and `nk` count predicate
evaluations and clock reads. -/

/-- The xp timed predicate loop, on an absolute deadline `absMs`. -/
def xp_wait_until_pred (pred : Nat → Bool) (absMs : Int) (nows : Nat → Int)
    (envs : Nat → Nat) : Nat → WaitCtx → Nat → Nat → Option Bool × List Action
  | 0, _, _, _ => (none, [])
  | fuel + 1, c, pk, nk =>
      if pred pk then (some true, [])
      else
        match xp_wait_for c (absMs - nows nk) (envs nk) with
        | (_, tr, .ok .timeout) => (some (pred (pk + 1)), tr)
        | (c1, tr, .ok .no_timeout) =>
            let p := xp_wait_until_pred pred absMs nows envs fuel c1 (pk + 1) (nk + 1)
            (p.1, tr ++ p.2)
        | (_, tr, .eproto) => (none, tr)
        | (_, tr, .terminated) => (none, tr)

/-- `xp::condition_variable_any::wait_for(M&, duration, pred)`
(lines 162-167): `wait_until(lock, steady_clock::now() + rel_time, pred)`. -/
def xp_wait_for_pred (fuel : Nat) (pred : Nat → Bool) (ms : Int)
    (nows : Nat → Int) (envs : Nat → Nat) (c : WaitCtx) :
    Option Bool × List Action :=
  xp_wait_until_pred pred (nows 0 + ms) (fun k => nows (k + 1)) envs fuel c 0 0

/-- The vista timed predicate loop, on an absolute deadline `absMs`. -/
def vista_wait_until_pred (pred : Nat → Bool) (absMs : Int) (nows : Nat → Int)
    (wakes : Nat → Bool) : Nat → Bool → Nat → Nat → Option Bool × List Action
  | 0, _, _, _ => (none, [])
  | fuel + 1, l, pk, nk =>
      if pred pk then (some true, [])
      else
        match vista_wait_for l (absMs - nows nk) (wakes nk) with
        | (_, tr, .ok .timeout) => (some (pred (pk + 1)), tr)
        | (l1, tr, .ok .no_timeout) =>
            let p := vista_wait_until_pred pred absMs nows wakes fuel l1 (pk + 1) (nk + 1)
            (p.1, tr ++ p.2)
        | (_, tr, .eproto) => (none, tr)
        | (_, tr, .terminated) => (none, tr)

/-- `vista::condition_variable::wait_for(unique_lock<mutex>&, duration,
pred)` (lines 314-322): `wait_until(lock, steady_clock::now() + rel_time,
std::move(pred))`. -/
def vista_wait_for_pred (fuel : Nat) (pred : Nat → Bool) (ms : Int)
    (nows : Nat → Int) (wakes : Nat → Bool) (l : Bool) :
    Option Bool × List Action :=
  vista_wait_until_pred pred (nows 0 + ms) (fun k => nows (k + 1)) wakes fuel l 0 0

/-- In a trace, every operating-system wait was issued with timeout `0`,
i.e. no call could block. -/
def nonBlockingB (tr : List Action) : Bool :=
  tr.all fun a =>
    match a with
    | .osWait t => t == 0
    | _ => true

/-! ### Construction -/

/-- The data members a freshly constructed `xp::condition_variable_any`
holds; a `none` handle models the `NULL` an OS creation call returns on
failure. -/
structure CVHandles where
  mNumWaiters : Int
  mSemaphore : Option Nat
  mWakeEvent : Option Nat
deriving DecidableEq, Repr

/-- How construction ends: a constructed object, or `std::terminate()`. -/
inductive CtorResult where
  | constructed (h : CVHandles)
  | terminated
deriving DecidableEq, Repr

/-- `xp::condition_variable_any::condition_variable_any()` (lines 58-61):
`mNumWaiters(0), mSemaphore(CreateSemaphore(NULL, 0, 0xFFFF, NULL)),
mWakeEvent(CreateEvent(NULL, FALSE, FALSE, NULL))` with an empty body.
The handles the two creation calls return are stored as they are; the code
performs no failure check of any kind. -/
def condition_variable_any_ctor (semHandle evtHandle : Option Nat) : CtorResult :=
  .constructed { mNumWaiters := 0, mSemaphore := semHandle, mWakeEvent := evtHandle }

/-! ### A transition system for the waiter counter

For the counter invariant we model the whole collection of threads using
one `xp::condition_variable_any`: each potential waiter thread is `idle` or
`registered` (it has executed the `mNumWaiters++` of `wait_impl` and not
yet the matching `mNumWaiters--`).  The steps are exactly the counter
mutations the source contains: the increment under `mMutex` (line 73), the
unconditional decrement after the semaphore wait (line 78) by the same
thread that incremented, and the notify paths, which read the counter but
never write it (lines 117-118, 138-140). -/

/-- Phase of one potential waiter thread. -/
inductive WaiterPhase where
  | idle
  | registered
deriving DecidableEq, Repr

/-- Global state: the atomic counter and each thread's phase. -/
structure SysState where
  mNumWaiters : Int
  phases : List WaiterPhase
deriving DecidableEq, Repr

/-- Number of threads currently between their increment and decrement. -/
def countRegistered : List WaiterPhase → Nat
  | [] => 0
  | .registered :: rest => countRegistered rest + 1
  | .idle :: rest => countRegistered rest

/-- A fresh condition variable with `n` client threads: `mNumWaiters(0)`,
nobody parked. -/
def SysState.init (n : Nat) : SysState :=
  { mNumWaiters := 0, phases := List.replicate n .idle }

/-- One step of any thread at a counter-relevant program point. -/
inductive SysStep : SysState → SysState → Prop where
  | register (s : SysState) (i : Nat) (h : s.phases[i]? = some .idle) :
      SysStep s { mNumWaiters := s.mNumWaiters + 1,
                  phases := s.phases.set i .registered }
  | exitWait (s : SysState) (i : Nat) (h : s.phases[i]? = some .registered) :
      SysStep s { mNumWaiters := s.mNumWaiters - 1,
                  phases := s.phases.set i .idle }
  | notifyRead (s : SysState) : SysStep s s

/-- States reachable from a fresh condition variable with `n` threads. -/
inductive Reachable (n : Nat) : SysState → Prop where
  | init : Reachable n (SysState.init n)
  | step {s t : SysState} : Reachable n s → SysStep s t → Reachable n t

/-! ### Helper lemmas -/

theorem applyExit_mNumWaiters (s : CVState) (e : WaiterExit) :
    (applyExit s e).mNumWaiters = s.mNumWaiters - 1 := by
  cases e <;> rfl

theorem applyExits_mNumWaiters : ∀ (es : List WaiterExit) (s : CVState),
    (applyExits s es).mNumWaiters = s.mNumWaiters - es.length
  | [], s => by simp [applyExits]
  | e :: rest, s => by
      have ih := applyExits_mNumWaiters rest (applyExit s e)
      simp only [applyExits, List.foldl_cons] at ih ⊢
      rw [ih, applyExit_mNumWaiters]
      simp only [List.length_cons]
      push_cast
      ring

theorem totalExits_cons (es : List WaiterExit) (ret : Nat) (rest : DrainSched) :
    totalExits ((es, ret) :: rest) = es.length + totalExits rest := by
  simp [totalExits]

theorem drainSemaphore_eq_zero : ∀ n, drainSemaphore n = 0
  | 0 => rfl
  | n + 1 => drainSemaphore_eq_zero n

theorem notifyAllLoop_done_count : ∀ (sched : DrainSched) (s s2 : CVState),
    (totalExits sched : Int) ≤ s.mNumWaiters →
    notifyAllLoop s sched = .done s2 → s2.mNumWaiters = 0 := by
  intro sched
  induction sched with
  | nil =>
      intro s s2 hle heq
      simp only [totalExits, List.map_nil, List.sum_nil, Nat.cast_zero] at hle
      simp only [notifyAllLoop] at heq
      split at heq
      · next h =>
          cases heq
          omega
      · exact absurd heq (by simp)
  | cons p rest ih =>
      obtain ⟨es, ret⟩ := p
      intro s s2 hle heq
      rw [totalExits_cons] at hle
      push_cast at hle
      simp only [notifyAllLoop] at heq
      split at heq
      · next h =>
          cases heq
          omega
      · next h =>
          split at heq
          · exact absurd heq (by simp)
          · refine ih _ s2 ?_ heq
            have hcount :
                (if ret = WAIT_OBJECT_0
                  then { applyExits s es with wakeEvent := false }
                  else applyExits s es).mNumWaiters
                  = s.mNumWaiters - es.length := by
              split <;> simp [applyExits_mNumWaiters]
            rw [hcount]
            omega

theorem notifyOneLoop_done_le : ∀ (sched : DrainSched) (target : Int) (s s2 : CVState),
    notifyOneLoop target s sched = .done s2 → s2.mNumWaiters ≤ target := by
  intro sched
  induction sched with
  | nil =>
      intro target s s2 heq
      simp only [notifyOneLoop] at heq
      split at heq
      · next h => cases heq; exact h
      · exact absurd heq (by simp)
  | cons p rest ih =>
      obtain ⟨es, ret⟩ := p
      intro target s s2 heq
      simp only [notifyOneLoop] at heq
      split at heq
      · next h => cases heq; exact h
      · next h =>
          split at heq
          · exact absurd heq (by simp)
          · exact ih target _ s2 heq

theorem xp_wait_pred_some_spec : ∀ (fuel k j : Nat) (pred : Nat → Bool),
    xp_wait_pred pred fuel k = some j →
    pred j = true ∧ k ≤ j ∧ ∀ i, k ≤ i → i < j → pred i = false := by
  intro fuel
  induction fuel with
  | zero =>
      intro k j pred h
      simp only [xp_wait_pred] at h
      cases hp : pred k with
      | true =>
          rw [hp] at h
          simp only [if_pos rfl] at h
          cases h
          exact ⟨hp, le_refl _, fun i h1 h2 => absurd h2 (by omega)⟩
      | false =>
          rw [hp] at h
          simp at h
  | succ fuel ih =>
      intro k j pred h
      simp only [xp_wait_pred] at h
      cases hp : pred k with
      | true =>
          rw [hp] at h
          simp only [if_pos rfl] at h
          cases h
          exact ⟨hp, le_refl _, fun i h1 h2 => absurd h2 (by omega)⟩
      | false =>
          rw [hp] at h
          simp only [Bool.false_eq_true, if_false] at h
          obtain ⟨h1, h2, h3⟩ := ih (k + 1) j pred h
          refine ⟨h1, by omega, fun i hki hij => ?_⟩
          rcases Nat.eq_or_lt_of_le hki with heq | hlt
          · exact heq ▸ hp
          · exact h3 i hlt hij

theorem vista_wait_pred_some_spec : ∀ (fuel k j : Nat) (pred : Nat → Bool),
    vista_wait_pred pred fuel k = some j →
    pred j = true ∧ k ≤ j ∧ ∀ i, k ≤ i → i < j → pred i = false := by
  intro fuel
  induction fuel with
  | zero =>
      intro k j pred h
      simp only [vista_wait_pred] at h
      cases hp : pred k with
      | true =>
          rw [hp] at h
          simp only [if_pos rfl] at h
          cases h
          exact ⟨hp, le_refl _, fun i h1 h2 => absurd h2 (by omega)⟩
      | false =>
          rw [hp] at h
          simp at h
  | succ fuel ih =>
      intro k j pred h
      simp only [vista_wait_pred] at h
      cases hp : pred k with
      | true =>
          rw [hp] at h
          simp only [if_pos rfl] at h
          cases h
          exact ⟨hp, le_refl _, fun i h1 h2 => absurd h2 (by omega)⟩
      | false =>
          rw [hp] at h
          simp only [Bool.false_eq_true, if_false] at h
          obtain ⟨h1, h2, h3⟩ := ih (k + 1) j pred h
          refine ⟨h1, by omega, fun i hki hij => ?_⟩
          rcases Nat.eq_or_lt_of_le hki with heq | hlt
          · exact heq ▸ hp
          · exact h3 i hlt hij

theorem xp_timeout_to_dword_nonpos {ms : Int} (h : ms ≤ 0) :
    xp_timeout_to_dword ms = 0 := by
  unfold xp_timeout_to_dword
  rcases lt_or_eq_of_le h with h1 | h1
  · rw [if_pos h1]
    simp
  · rw [h1]
    simp

theorem vista_cv_timeout_eq_xp :
    vista_cv_timeout_to_dword = xp_timeout_to_dword := rfl

theorem vista_cva_timeout_eq_xp :
    vista_cva_timeout_to_dword = xp_timeout_to_dword := rfl

theorem wait_impl_zero_quiescent (c : WaitCtx) (env : Nat)
    (hq : c.cv.semCount = 0) :
    wait_impl c 0 env =
      ({ cv := { mNumWaiters := c.cv.mNumWaiters, semCount := 0,
                 wakeEvent := true }, extLockHeld := true },
       [.lockInternal, .incWaiters, .unlockInternal, .unlockExternal,
        .osWait 0, .decWaiters, .setWakeEvent, .lockExternal],
       .ok false) := by
  simp [wait_impl, waitForSemaphore, hq, WAIT_OBJECT_0, WAIT_TIMEOUT]

theorem xp_wait_for_nonpos_eq (c : WaitCtx) (ms : Int) (env : Nat)
    (hms : ms ≤ 0) (hq : c.cv.semCount = 0) :
    xp_wait_for c ms env =
      ({ cv := { mNumWaiters := c.cv.mNumWaiters, semCount := 0,
                 wakeEvent := true }, extLockHeld := true },
       [.lockInternal, .incWaiters, .unlockInternal, .unlockExternal,
        .osWait 0, .decWaiters, .setWakeEvent, .lockExternal],
       .ok .timeout) := by
  simp only [xp_wait_for, xp_timeout_to_dword_nonpos hms,
             wait_impl_zero_quiescent c env hq]

theorem vista_wait_for_nonpos_eq (l : Bool) (ms : Int) (hms : ms ≤ 0) :
    vista_wait_for l ms false =
      (true, [.unlockExternal, .osWait 0, .lockExternal], .ok .timeout) := by
  simp only [vista_wait_for, vista_wait_impl, vista_cv_timeout_eq_xp,
             xp_timeout_to_dword_nonpos hms]

theorem xp_wait_until_pred_timeout_step (pred : Nat → Bool) (absMs : Int)
    (nows : Nat → Int) (envs : Nat → Nat) (fuel : Nat) (c : WaitCtx)
    (pk nk : Nat) (hp : pred pk = false) (hrel : absMs - nows nk ≤ 0)
    (hq : c.cv.semCount = 0) :
    xp_wait_until_pred pred absMs nows envs (fuel + 1) c pk nk =
      (some (pred (pk + 1)),
       [.lockInternal, .incWaiters, .unlockInternal, .unlockExternal,
        .osWait 0, .decWaiters, .setWakeEvent, .lockExternal]) := by
  simp only [xp_wait_until_pred, hp, Bool.false_eq_true, if_false]
  rw [xp_wait_for_nonpos_eq c _ (envs nk) hrel hq]

theorem vista_wait_until_pred_timeout_step (pred : Nat → Bool) (absMs : Int)
    (nows : Nat → Int) (wakes : Nat → Bool) (fuel : Nat) (l : Bool)
    (pk nk : Nat) (hp : pred pk = false) (hrel : absMs - nows nk ≤ 0)
    (hw : wakes nk = false) :
    vista_wait_until_pred pred absMs nows wakes (fuel + 1) l pk nk =
      (some (pred (pk + 1)),
       [.unlockExternal, .osWait 0, .lockExternal]) := by
  simp only [vista_wait_until_pred, hp, Bool.false_eq_true, if_false]
  rw [hw, vista_wait_for_nonpos_eq l _ hrel]

theorem countRegistered_set_registered : ∀ (l : List WaiterPhase) (i : Nat),
    l[i]? = some .idle →
    countRegistered (l.set i .registered) = countRegistered l + 1
  | [], i, h => by simp at h
  | x :: rest, 0, h => by
      simp only [List.getElem?_cons_zero, Option.some_inj] at h
      subst h
      simp [countRegistered, List.set]
  | x :: rest, i + 1, h => by
      simp only [List.getElem?_cons_succ] at h
      have ih := countRegistered_set_registered rest i h
      cases x <;> simp [countRegistered, List.set, ih]

theorem countRegistered_set_idle : ∀ (l : List WaiterPhase) (i : Nat),
    l[i]? = some .registered →
    countRegistered (l.set i .idle) + 1 = countRegistered l
  | [], i, h => by simp at h
  | x :: rest, 0, h => by
      simp only [List.getElem?_cons_zero, Option.some_inj] at h
      subst h
      simp [countRegistered, List.set]
  | x :: rest, i + 1, h => by
      simp only [List.getElem?_cons_succ] at h
      have ih := countRegistered_set_idle rest i h
      cases x <;> simp [countRegistered, List.set] <;> omega

theorem countRegistered_replicate_idle :
    ∀ n, countRegistered (List.replicate n .idle) = 0
  | 0 => rfl
  | n + 1 => by
      simp [List.replicate_succ, countRegistered,
            countRegistered_replicate_idle n]

theorem sysStep_counter {s t : SysState} (st : SysStep s t)
    (h : s.mNumWaiters = (countRegistered s.phases : Int)) :
    t.mNumWaiters = (countRegistered t.phases : Int) := by
  cases st with
  | register i hi =>
      have hc := countRegistered_set_registered s.phases i hi
      simp only [hc]
      push_cast
      omega
  | exitWait i hi =>
      have hc := countRegistered_set_idle s.phases i hi
      simp only []
      omega
  | notifyRead => exact h

/-! ### Claim theorems -/

/-- C2: for every caller holding the external lock, the emulated engine's
`wait_impl` performs exactly, in order: increment of the waiter count under
the internal lock, release of the external lock, the OS wait on the wakeup
semaphore with the given (possibly `INFINITE`) timeout, the unconditional
decrement of the waiter count and signalling of the drain event (the trace
is the same whatever the wait status), reacquisition of the external lock;
and it returns `true` on a real notification (`WAIT_OBJECT_0`) and `false`
on a timeout (`WAIT_TIMEOUT`). -/
theorem xp_wait_impl_step_order (c : WaitCtx) (timeout env : Nat)
    (h : c.extLockHeld = true) :
    (wait_impl c timeout env).2.1 =
      [.lockInternal, .incWaiters, .unlockInternal, .unlockExternal,
       .osWait timeout, .decWaiters, .setWakeEvent, .lockExternal] ∧
    (wait_impl c timeout env).1.extLockHeld = true ∧
    (wait_impl c timeout env).1.cv.wakeEvent = true ∧
    ((waitForSemaphore c.cv.semCount timeout env).1 = WAIT_OBJECT_0 →
      (wait_impl c timeout env).2.2 = .ok true) ∧
    ((waitForSemaphore c.cv.semCount timeout env).1 = WAIT_TIMEOUT →
      (wait_impl c timeout env).2.2 = .ok false) := by
  refine ⟨rfl, rfl, rfl, ?_, ?_⟩
  · intro hr
    simp [wait_impl, hr]
  · intro hr
    simp [wait_impl, hr, WAIT_TIMEOUT, WAIT_OBJECT_0]

theorem xp_wait_impl_step_order_witness :
    (wait_impl { cv := { mNumWaiters := 0, semCount := 0, wakeEvent := false },
                 extLockHeld := true } 5 WAIT_TIMEOUT).2.1 =
      [.lockInternal, .incWaiters, .unlockInternal, .unlockExternal,
       .osWait 5, .decWaiters, .setWakeEvent, .lockExternal] :=
  (xp_wait_impl_step_order
    { cv := { mNumWaiters := 0, semCount := 0, wakeEvent := false },
      extLockHeld := true } 5 WAIT_TIMEOUT rfl).1

/-- C7: when the OS wait on the wakeup semaphore returns a status other
than `WAIT_OBJECT_0` or `WAIT_TIMEOUT`, the emulated `wait_impl` ends in
the thrown `std::system_error(EPROTO, ...)` — a recoverable error — not in
`std::terminate()` and not in a normal boolean return. -/
theorem xp_wait_impl_unexpected_status (c : WaitCtx) (timeout env : Nat)
    (hq : c.cv.semCount = 0) (ht : timeout ≠ 0)
    (h2 : env ≠ WAIT_OBJECT_0) (h3 : env ≠ WAIT_TIMEOUT) :
    (wait_impl c timeout env).2.2 = .eproto ∧
    (wait_impl c timeout env).2.2 ≠ .terminated ∧
    (∀ b, (wait_impl c timeout env).2.2 ≠ .ok b) := by
  have key : (wait_impl c timeout env).2.2 = .eproto := by
    simp [wait_impl, waitForSemaphore, hq, ht, h2, h3]
  refine ⟨key, by rw [key]; simp, fun b => by rw [key]; simp⟩

theorem xp_wait_impl_unexpected_status_witness :
    (wait_impl { cv := { mNumWaiters := 0, semCount := 0, wakeEvent := false },
                 extLockHeld := true } 5 WAIT_FAILED).2.2 = .eproto :=
  (xp_wait_impl_unexpected_status
    { cv := { mNumWaiters := 0, semCount := 0, wakeEvent := false },
      extLockHeld := true } 5 WAIT_FAILED rfl (by decide) (by decide)
    (by decide)).1

/-- C9: on the error path of the emulated `wait_impl` (the `EPROTO` throw),
the state is already consistent before the exception propagates: the
caller's decrement has happened (the waiter count is back to its entry
value, no drift), the drain event has been signalled, and the external lock
has been reacquired; the trace contains the decrement, the event signal and
the relock. -/
theorem xp_wait_impl_error_consistent (c : WaitCtx) (timeout env : Nat)
    (hl : c.extLockHeld = true)
    (he : (wait_impl c timeout env).2.2 = .eproto) :
    (wait_impl c timeout env).1.extLockHeld = true ∧
    (wait_impl c timeout env).1.cv.mNumWaiters = c.cv.mNumWaiters ∧
    (wait_impl c timeout env).1.cv.wakeEvent = true ∧
    Action.decWaiters ∈ (wait_impl c timeout env).2.1 ∧
    Action.setWakeEvent ∈ (wait_impl c timeout env).2.1 ∧
    Action.lockExternal ∈ (wait_impl c timeout env).2.1 := by
  refine ⟨rfl, ?_, rfl, ?_, ?_, ?_⟩
  · simp only [wait_impl]
    omega
  · simp [wait_impl]
  · simp [wait_impl]
  · simp [wait_impl]

theorem xp_wait_impl_error_consistent_witness :
    (wait_impl { cv := { mNumWaiters := 0, semCount := 0, wakeEvent := false },
                 extLockHeld := true } 5 WAIT_FAILED).1.extLockHeld = true :=
  (xp_wait_impl_error_consistent
    { cv := { mNumWaiters := 0, semCount := 0, wakeEvent := false },
      extLockHeld := true } 5 WAIT_FAILED rfl (by decide)).1

/-- C10: the relative-timeout conversion used by all three `wait_for`
overloads clamps the millisecond count only from below at `0` and then
truncates to a 32-bit unsigned value: a negative count becomes `0`; a count
below `2^32` passes through unchanged; a positive count congruent to
`0xFFFFFFFF` modulo `2^32` becomes exactly the `INFINITE` sentinel; any
count of at least `2^32` milliseconds otherwise wraps modulo `2^32` to a
strictly shorter timeout.  The three call sites compute identically. -/
theorem wait_for_dword_truncation (ms : Int) :
    (ms < 0 → xp_timeout_to_dword ms = 0) ∧
    (0 ≤ ms → ms < 4294967296 → (xp_timeout_to_dword ms : Int) = ms) ∧
    (0 < ms → ms % 4294967296 = 4294967295 →
      xp_timeout_to_dword ms = INFINITE) ∧
    (4294967296 ≤ ms → ms % 4294967296 ≠ 4294967295 →
      (xp_timeout_to_dword ms : Int) = ms % 4294967296 ∧
      (xp_timeout_to_dword ms : Int) < ms) ∧
    vista_cv_timeout_to_dword ms = xp_timeout_to_dword ms ∧
    vista_cva_timeout_to_dword ms = xp_timeout_to_dword ms := by
  refine ⟨?_, ?_, ?_, ?_, rfl, rfl⟩
  · intro h
    simp only [xp_timeout_to_dword]
    rw [if_pos h]
    simp
  · intro h1 h2
    simp only [xp_timeout_to_dword]
    rw [if_neg (by omega)]
    omega
  · intro h1 h2
    simp only [xp_timeout_to_dword, INFINITE]
    rw [if_neg (by omega)]
    omega
  · intro h1 h2
    simp only [xp_timeout_to_dword]
    rw [if_neg (by omega)]
    constructor
    · omega
    · omega

theorem wait_for_dword_truncation_witness :
    xp_timeout_to_dword (-5) = 0 :=
  (wait_for_dword_truncation (-5)).1 (by decide)

/-- C3: in both the emulated (`xp`) and the native-backed (`vista`) engine,
`wait(lock, pred)` returns only once an evaluation of `pred()` came back
`true`: the predicate is evaluated before the first wait (evaluation `0`)
and once per loop iteration, every evaluation before the returning one was
`false`, and the call never returns while the last evaluation of `pred()`
was `false`. -/
theorem cv_wait_pred_returns_only_true (pred : Nat → Bool) (fuel j : Nat) :
    (xp_wait_pred pred fuel 0 = some j →
      pred j = true ∧ ∀ i, i < j → pred i = false) ∧
    (vista_wait_pred pred fuel 0 = some j →
      pred j = true ∧ ∀ i, i < j → pred i = false) := by
  constructor
  · intro h
    obtain ⟨h1, _, h3⟩ := xp_wait_pred_some_spec fuel 0 j pred h
    exact ⟨h1, fun i hij => h3 i (Nat.zero_le i) hij⟩
  · intro h
    obtain ⟨h1, _, h3⟩ := vista_wait_pred_some_spec fuel 0 j pred h
    exact ⟨h1, fun i hij => h3 i (Nat.zero_le i) hij⟩

theorem cv_wait_pred_returns_only_true_witness :
    (fun k : Nat => decide (k = 1)) 1 = true :=
  ((cv_wait_pred_returns_only_true (fun k => decide (k = 1)) 3 1).1
    (by decide)).1

/-- C1: `notify_all`, holding the internal lock, is a no-op when the waiter
count is at most 0; otherwise it releases exactly `mNumWaiters` units on
the wakeup semaphore in one release call, blocks on the drain event until
the waiter count reaches zero, and then drains residual semaphore units
with the non-blocking poll-until-empty loop — so for every schedule of
concurrent waiter exits that does not exceed the parked population, a
normal return leaves both the waiter count and the semaphore count at
zero, and a subsequent notify call observes a parked count of zero. -/
theorem xp_notify_all_spec (s : CVState) (sched : DrainSched) :
    (s.mNumWaiters ≤ 0 → notify_all s sched = (.done s, [])) ∧
    (0 < s.mNumWaiters → (notify_all s sched).2 = [s.mNumWaiters.toNat]) ∧
    (0 < s.mNumWaiters → (totalExits sched : Int) ≤ s.mNumWaiters →
      ∀ s2, (notify_all s sched).1 = .done s2 →
        s2.mNumWaiters = 0 ∧ s2.semCount = 0) := by
  refine ⟨?_, ?_, ?_⟩
  · intro h
    simp [notify_all, h]
  · intro h
    have h1 : ¬ s.mNumWaiters ≤ 0 := by omega
    simp only [notify_all, if_neg h1]
    split <;> rfl
  · intro h hle s2 heq
    have h1 : ¬ s.mNumWaiters ≤ 0 := by omega
    simp only [notify_all, if_neg h1] at heq
    cases hres : notifyAllLoop
        { s with semCount := s.semCount + s.mNumWaiters.toNat } sched with
    | done t =>
        rw [hres] at heq
        simp only [NotifyResult.done.injEq] at heq
        have ht : t.mNumWaiters = 0 :=
          notifyAllLoop_done_count sched _ t (by simpa using hle) hres
        rw [← heq]
        exact ⟨ht, drainSemaphore_eq_zero _⟩
    | fatal =>
        rw [hres] at heq
        simp at heq
    | outOfSched =>
        rw [hres] at heq
        simp at heq

theorem xp_notify_all_spec_witness :
    (CVState.mk 0 0 true).mNumWaiters = 0 ∧
    (CVState.mk 0 0 true).semCount = 0 :=
  (xp_notify_all_spec ⟨2, 0, false⟩ [([.timedOut, .woken], WAIT_TIMEOUT)]).2.2
    (by decide) (by decide) (CVState.mk 0 0 true) (by decide)

/-- C4 counterexample: with two waiters parked (`mNumWaiters = 2`) and both
of them timing out concurrently while `notify_one` is blocked on the drain
event, `notify_one` returns normally with the waiter count at `0`, i.e.
decreased by two — not by exactly one — relative to the value read at
entry, refuting the claim that it does not return until the count has
decreased by exactly one. -/
theorem xp_notify_one_exact_decrease_cex :
    notify_one ⟨2, 0, false⟩ [([.timedOut, .timedOut], WAIT_TIMEOUT)] =
      (.done ⟨0, 1, true⟩, [1]) ∧
    ((0 : Int) ≠ 2 - 1) :=
  ⟨by decide, by decide⟩

/-- C4 (amended): `notify_one`, holding the internal lock, is a no-op when
the waiter count is at most 0; otherwise it releases exactly one unit on
the wakeup semaphore and does not return until the waiter count has
decreased by at least one relative to the value it read at entry — the
drain loop exits as soon as the count is at most entry minus one, and
concurrent waiter timeouts can make the observed decrease exceed one. -/
theorem xp_notify_one_spec (s : CVState) (sched : DrainSched) :
    (s.mNumWaiters ≤ 0 → notify_one s sched = (.done s, [])) ∧
    (0 < s.mNumWaiters → (notify_one s sched).2 = [1]) ∧
    (0 < s.mNumWaiters → ∀ s2, (notify_one s sched).1 = .done s2 →
      s2.mNumWaiters ≤ s.mNumWaiters - 1) := by
  refine ⟨?_, ?_, ?_⟩
  · intro h
    have h1 : s.mNumWaiters - 1 ≤ -1 := by omega
    simp [notify_one, h1]
  · intro h
    have h1 : ¬ (s.mNumWaiters - 1 ≤ -1) := by omega
    simp [notify_one, h1]
  · intro h s2 heq
    have h1 : ¬ (s.mNumWaiters - 1 ≤ -1) := by omega
    simp only [notify_one, if_neg h1] at heq
    exact notifyOneLoop_done_le sched _ _ s2 heq

theorem xp_notify_one_spec_witness :
    (CVState.mk 1 1 true).mNumWaiters ≤
      (CVState.mk 2 0 false).mNumWaiters - 1 :=
  (xp_notify_one_spec ⟨2, 0, false⟩ [([.timedOut], WAIT_TIMEOUT)]).2.2
    (by decide) (CVState.mk 1 1 true) (by decide)

/-- C6: in every state reachable by any interleaving of waiter
registrations (the increment under the internal lock), waiter exits (the
matching decrement by the same thread, after its OS wait) and notify calls
(which only read the counter), the waiter count equals the number of
threads currently between their increment and their decrement and is hence
never negative; and both notify paths return early, without touching any
state, when the count is at most zero. -/
theorem xp_waiter_count_never_negative (n : Nat) (s : SysState)
    (h : Reachable n s) :
    s.mNumWaiters = (countRegistered s.phases : Int) ∧
    0 ≤ s.mNumWaiters ∧
    (∀ (t : CVState) (sched : DrainSched), t.mNumWaiters ≤ 0 →
      notify_all t sched = (.done t, []) ∧
      notify_one t sched = (.done t, [])) := by
  have key : s.mNumWaiters = (countRegistered s.phases : Int) := by
    induction h with
    | init => simp [SysState.init, countRegistered_replicate_idle]
    | step hr st ih => exact sysStep_counter st ih
  refine ⟨key, by rw [key]; exact Int.natCast_nonneg _, ?_⟩
  intro t sched ht
  refine ⟨by simp [notify_all, ht], ?_⟩
  have h1 : t.mNumWaiters - 1 ≤ -1 := by omega
  simp [notify_one, h1]

theorem xp_waiter_count_never_negative_witness :
    (SysState.mk 1 [.registered, .idle]).mNumWaiters =
      (countRegistered (SysState.mk 1 [.registered, .idle]).phases : Int) :=
  (xp_waiter_count_never_negative 2 (SysState.mk 1 [.registered, .idle])
    (Reachable.step Reachable.init
      (SysStep.register (SysState.init 2) 0 (by decide)))).1

/-- C8 counterexample: the constructor performs no check whatsoever on the
handles returned by `CreateSemaphore` and `CreateEvent`; with both creation
calls failing (returning `NULL`, modelled as `none`) it still constructs
the object normally, storing the null handles — it does not terminate the
process, refuting the claim that handle-creation failure at construction
is fatal. -/
theorem xp_ctor_failure_not_fatal_cex :
    condition_variable_any_ctor none none =
      .constructed { mNumWaiters := 0, mSemaphore := none,
                     mWakeEvent := none } ∧
    condition_variable_any_ctor none none ≠ .terminated :=
  ⟨rfl, by decide⟩

/-- C8 (amended): a `WAIT_FAILED` or `WAIT_ABANDONED` status from the OS
wait on the drain event inside `notify_all` or `notify_one` is fatal: both
calls end in `std::terminate()` rather than hanging or reporting a
recoverable error.  A handle-creation failure at construction, however, is
not checked: the constructor stores whatever handles the creation calls
returned and completes normally. -/
theorem xp_fatal_paths (s : CVState) (es : List WaiterExit)
    (rest : DrainSched) (ret : Nat)
    (hret : ret = WAIT_FAILED ∨ ret = WAIT_ABANDONED)
    (h : 0 < s.mNumWaiters) (semHandle evtHandle : Option Nat) :
    (notify_all s ((es, ret) :: rest)).1 = .fatal ∧
    (notify_one s ((es, ret) :: rest)).1 = .fatal ∧
    condition_variable_any_ctor semHandle evtHandle =
      .constructed { mNumWaiters := 0, mSemaphore := semHandle,
                     mWakeEvent := evtHandle } := by
  refine ⟨?_, ?_, rfl⟩
  · have h1 : ¬ s.mNumWaiters ≤ 0 := by omega
    simp only [notify_all, if_neg h1, notifyAllLoop, if_pos hret]
  · have h1 : ¬ (s.mNumWaiters - 1 ≤ -1) := by omega
    have h2 : ¬ (s.mNumWaiters ≤ s.mNumWaiters - 1) := by omega
    simp only [notify_one, if_neg h1, notifyOneLoop, if_pos hret, if_neg h2]

theorem xp_fatal_paths_witness :
    (notify_all ⟨1, 0, false⟩ [([], WAIT_FAILED)]).1 = .fatal :=
  (xp_fatal_paths ⟨1, 0, false⟩ [] [] WAIT_FAILED (Or.inl rfl) (by decide)
    none none).1

/-- C5: for every relative timeout of at most zero milliseconds, the
`wait_for` conversions of both engines yield the zero-millisecond OS
timeout — never the `INFINITE` sentinel — so every OS wait issued is
non-blocking; and with no wakeup pending (empty semaphore for the emulated
engine, no wake delivered to the native sleep) the pred-less variants
return `cv_status::timeout` immediately while the pred-based variants
return the final value of the predicate, again after exclusively
zero-timeout OS waits. -/
theorem cv_wait_for_nonpos_immediate (ms : Int) (hms : ms ≤ 0) (c : WaitCtx)
    (hq : c.cv.semCount = 0) (env : Nat) (l : Bool) (pred : Nat → Bool)
    (nows : Nat → Int) (hmono : ∀ k, nows 0 ≤ nows k) (envs : Nat → Nat)
    (wakes : Nat → Bool) (hw : wakes 0 = false) (fuel : Nat) :
    xp_timeout_to_dword ms = 0 ∧
    vista_cv_timeout_to_dword ms = 0 ∧
    xp_timeout_to_dword ms ≠ INFINITE ∧
    (xp_wait_for c ms env).2.2 = .ok .timeout ∧
    nonBlockingB (xp_wait_for c ms env).2.1 = true ∧
    (vista_wait_for l ms false).2.2 = .ok .timeout ∧
    nonBlockingB (vista_wait_for l ms false).2.1 = true ∧
    (xp_wait_for_pred (fuel + 1) pred ms nows envs c).1 =
      some (pred 0 || pred 1) ∧
    nonBlockingB (xp_wait_for_pred (fuel + 1) pred ms nows envs c).2 = true ∧
    (vista_wait_for_pred (fuel + 1) pred ms nows wakes l).1 =
      some (pred 0 || pred 1) ∧
    nonBlockingB (vista_wait_for_pred (fuel + 1) pred ms nows wakes l).2
      = true := by
  have hdw := xp_timeout_to_dword_nonpos hms
  have habs : (nows 0 + ms) - nows 1 ≤ 0 := by
    have := hmono 1
    omega
  refine ⟨hdw, by rw [vista_cv_timeout_eq_xp]; exact hdw,
    by rw [hdw]; decide, ?_, ?_, ?_, ?_, ?_, ?_, ?_, ?_⟩
  · rw [xp_wait_for_nonpos_eq c ms env hms hq]
  · rw [xp_wait_for_nonpos_eq c ms env hms hq]
    rfl
  · rw [vista_wait_for_nonpos_eq l ms hms]
  · rw [vista_wait_for_nonpos_eq l ms hms]
    rfl
  · cases hp : pred 0 with
    | true => simp [xp_wait_for_pred, xp_wait_until_pred, hp]
    | false =>
        have hstep := xp_wait_until_pred_timeout_step pred (nows 0 + ms)
          (fun k => nows (k + 1)) envs fuel c 0 0 hp habs hq
        simp [xp_wait_for_pred, hstep, hp]
  · cases hp : pred 0 with
    | true => simp [xp_wait_for_pred, xp_wait_until_pred, hp, nonBlockingB]
    | false =>
        have hstep := xp_wait_until_pred_timeout_step pred (nows 0 + ms)
          (fun k => nows (k + 1)) envs fuel c 0 0 hp habs hq
        rw [show xp_wait_for_pred (fuel + 1) pred ms nows envs c
              = xp_wait_until_pred pred (nows 0 + ms) (fun k => nows (k + 1))
                  envs (fuel + 1) c 0 0 from rfl, hstep]
        rfl
  · cases hp : pred 0 with
    | true => simp [vista_wait_for_pred, vista_wait_until_pred, hp]
    | false =>
        have hstep := vista_wait_until_pred_timeout_step pred (nows 0 + ms)
          (fun k => nows (k + 1)) wakes fuel l 0 0 hp habs hw
        simp [vista_wait_for_pred, hstep, hp]
  · cases hp : pred 0 with
    | true => simp [vista_wait_for_pred, vista_wait_until_pred, hp, nonBlockingB]
    | false =>
        have hstep := vista_wait_until_pred_timeout_step pred (nows 0 + ms)
          (fun k => nows (k + 1)) wakes fuel l 0 0 hp habs hw
        rw [show vista_wait_for_pred (fuel + 1) pred ms nows wakes l
              = vista_wait_until_pred pred (nows 0 + ms) (fun k => nows (k + 1))
                  wakes (fuel + 1) l 0 0 from rfl, hstep]
        rfl

theorem cv_wait_for_nonpos_immediate_witness :
    xp_timeout_to_dword (-3) = 0 :=
  (cv_wait_for_nonpos_immediate (-3) (by decide)
    { cv := { mNumWaiters := 0, semCount := 0, wakeEvent := false },
      extLockHeld := true } rfl 0 true (fun _ => false) (fun _ => 0)
    (fun _ => le_refl (0 : Int)) (fun _ => 0) (fun _ => false) rfl 0).1

end MinGWThreads
